import Mathlib

/-!
Verification development for the NSSaDS repository (labs 3 and 4).

This file gives a shallow embedding, in Lean 4, of the parts of the Go
source that the specification talks about:

* the Calc service handler (lab4/internal/usecase/services.go),
* the Stats service POOL branch (lab4/internal/usecase/services.go),
* the reply envelope construction (UDPServer.sendResponse),
* request parsing (UDPServer.parseRequest),
* the per-tag statistics updates of UDPServer.handleRequest and
  UDPServer.handleServiceConnections,
* the service registry (ServiceRegistry.RegisterService),
* the dynamically sized worker pool (ThreadPool) as a labelled
  transition system over its counters and its actual goroutines,
* the chunk-size computations of the stream server
  (selectMultiplexer.calculateOptimalChunkSize and the free function
  CalculateOptimalChunkSize).

Modelling conventions:

* The float64 primitives the Calc handler calls (strconv.ParseFloat,
  the four arithmetic operators of the language, the b == 0 comparison
  and fmt %.2f) are Go standard library and language primitives,
  outside this repository; the Calc theorems quantify over them as an
  abstract parameter block (structure CalcFloatOps below), the same way
  the parseRequest theorems quantify over the json.Unmarshal outcome.
  A reference instantiation over exact fractions (structure GoFloat, an
  integer numerator over a positive integer denominator) is provided
  for evaluating the concrete scenarios, all of whose operand and
  result values are exactly representable binary64 doubles, so the
  reference instantiation coincides with Go on them.
* Go strings are Lean String values; the character-level functions work
  on the underlying List Char so that every definition is structurally
  recursive and evaluates inside the kernel.
* Machine integers (int, int32, int64, time.Duration) are modelled as
  Int or Nat; none of the scenarios considered approaches an overflow
  boundary. Go integer division truncates toward zero; every division
  in the embedded code has non-negative operands, where truncation,
  floor and Euclidean division agree, except where Int.tdiv is used
  explicitly.
* Wall-clock values (time.Now, timestamps) are passed in as parameters
  and carried through unchanged; UUID generation is passed in as the
  parameter freshId.
-/

namespace NSSaDS

/-! ## Exact fractions standing for Go float64 values -/

/-- The reference model of a finite Go float64 value: an exact
fraction, numerator over positive denominator.  Every constructor
below keeps the denominator positive.  On values that are exactly
representable in binary64 the exact arithmetic coincides with the Go
arithmetic; the Calc claim theorems do not depend on this model (they
take the float primitives as parameters) and it is evaluated only at
concrete instances within that scope. -/
structure GoFloat where
  num : Int
  den : Int
deriving Repr, DecidableEq

namespace GoFloat

/-- The rational value of a modelled float. -/
def toRat (x : GoFloat) : ℚ := (x.num : ℚ) / (x.den : ℚ)

def add (x y : GoFloat) : GoFloat := ⟨x.num * y.den + y.num * x.den, x.den * y.den⟩

def sub (x y : GoFloat) : GoFloat := ⟨x.num * y.den - y.num * x.den, x.den * y.den⟩

def mul (x y : GoFloat) : GoFloat := ⟨x.num * y.num, x.den * y.den⟩

/-- Division, keeping the denominator positive.  The Go code divides
only after checking the divisor against zero. -/
def divF (x y : GoFloat) : GoFloat :=
  if y.num < 0 then ⟨-(x.num * y.den), x.den * (-y.num)⟩
  else ⟨x.num * y.den, x.den * y.num⟩

/-- The Go comparison b == 0 on a float64: true exactly when the value
is (plus or minus) zero, i.e. the numerator is zero. -/
def isZero (x : GoFloat) : Bool := x.num = 0

end GoFloat

/-! ## strings.Fields -/

/-- unicode.IsSpace, as used by strings.Fields: the Unicode White_Space
code points U+0009..U+000D, U+0020, U+0085, U+00A0, U+1680,
U+2000..U+200A, U+2028, U+2029, U+202F, U+205F and U+3000. -/
def isGoSpace (c : Char) : Bool :=
  let n := c.toNat
  (9 ≤ n ∧ n ≤ 13) ∨ n = 32 ∨ n = 133 ∨ n = 160 ∨ n = 5760 ∨
    (8192 ≤ n ∧ n ≤ 8202) ∨ n = 8232 ∨ n = 8233 ∨ n = 8239 ∨ n = 8287 ∨ n = 12288

/-- Helper for fieldsList: acc holds the current field, reversed. -/
def fieldsAux : List Char → List Char → List (List Char)
  | [], acc => if acc.isEmpty then [] else [acc.reverse]
  | c :: cs, acc =>
      if isGoSpace c then
        if acc.isEmpty then fieldsAux cs [] else acc.reverse :: fieldsAux cs []
      else fieldsAux cs (c :: acc)

/-- strings.Fields: split around runs of whitespace, no empty fields. -/
def fieldsList (cs : List Char) : List (List Char) := fieldsAux cs []

/-! ## Reference parse: the decimal fragment of strconv.ParseFloat

parseFloatQ below covers the plain decimal grammar: optional sign,
digits with an optional decimal point (at least one digit overall), and
an optional decimal exponent.  The real ParseFloat additionally accepts
inf, nan, hexadecimal and underscore forms and reports ErrRange outside
the binary64 range; the Calc claim theorems therefore treat the parse
function as an abstract parameter, and parseFloatQ is only the
reference instantiation, evaluated at concrete numerals (such as 5, 10,
1 and 0) on which it returns exactly what ParseFloat returns. -/

def isDigitC (c : Char) : Bool := '0' ≤ c ∧ c ≤ '9'

/-- Numeric value of a digit string, most significant first. -/
def digitsVal (ds : List Char) : Nat :=
  ds.foldl (fun a c => a * 10 + (c.toNat - 48)) 0

/-- Consume an optional sign; the Bool result is true for a minus. -/
def takeSign : List Char → Bool × List Char
  | '+' :: cs => (false, cs)
  | '-' :: cs => (true, cs)
  | cs => (false, cs)

/-- Finish a parse: mantissa value m over 10 ^ f, then an optional
exponent part, which must consume the rest of the input. -/
def applyExp (neg : Bool) (m : Nat) (f : Nat) : List Char → Option GoFloat
  | [] =>
      some ⟨(if neg then -(m : Int) else (m : Int)), (10 : Int) ^ f⟩
  | e :: cs =>
      if e = 'e' ∨ e = 'E' then
        let eneg := (takeSign cs).1
        let cs1 := (takeSign cs).2
        let eds := cs1.takeWhile isDigitC
        let rest := cs1.dropWhile isDigitC
        if eds.isEmpty ∨ ¬ rest.isEmpty then none
        else
          let ev := digitsVal eds
          let n0 : Int := if neg then -(m : Int) else (m : Int)
          if eneg then some ⟨n0, (10 : Int) ^ (f + ev)⟩
          else some ⟨n0 * (10 : Int) ^ ev, (10 : Int) ^ f⟩
      else none

/-- Reference parse function: the decimal grammar of ParseFloat, as an
exact fraction (see the section comment above for its scope). -/
def parseFloatQ (cs : List Char) : Option GoFloat :=
  let neg := (takeSign cs).1
  let cs1 := (takeSign cs).2
  let ip := cs1.takeWhile isDigitC
  let cs2 := cs1.dropWhile isDigitC
  match cs2 with
  | '.' :: cs3 =>
      let fp := cs3.takeWhile isDigitC
      let cs4 := cs3.dropWhile isDigitC
      if ip.isEmpty ∧ fp.isEmpty then none
      else applyExp neg (digitsVal ip * 10 ^ fp.length + digitsVal fp) fp.length cs4
  | _ =>
      if ip.isEmpty then none
      else applyExp neg (digitsVal ip) 0 cs2

/-! ## fmt %.2f formatting -/

/-- Decimal digit characters of a natural number (fmt prints base 10). -/
def natChars (n : Nat) : List Char := Nat.toDigits 10 n

/-- Two-digit zero-padded fractional part. -/
def pad2 (n : Nat) : List Char := if n < 10 then '0' :: natChars n else natChars n

/-- Reference formatting: fmt %.2f rounds the binary value of the
double to the nearest hundredth, ties to even, and prints sign, integer
part, point, two fractional digits.  This function performs that
rounding on the exact fraction, so it agrees with %.2f on every value
that is exactly representable in binary64 (on other values %.2f rounds
the binary approximation, which this exact model cannot see; the Calc
claim theorems therefore take the format function as an abstract
parameter and this reference is evaluated only within its scope). -/
def fmtF2 (x : GoFloat) : List Char :=
  let neg := x.num < 0
  let a : Int := if neg then -x.num else x.num
  let q : Int := a * 100
  let f : Int := q / x.den
  let rem : Int := q % x.den
  let r : Int :=
    if 2 * rem < x.den then f
    else if 2 * rem > x.den then f + 1
    else if f % 2 = 0 then f else f + 1
  let rn : Nat := r.toNat
  (if neg then ['-'] else []) ++ natChars (rn / 100) ++ '.' :: pad2 (rn % 100)

/-! ## lab4 domain records (internal/domain/service.go) -/

/-- domain.Request (net address and receive time omitted; they play no
role in any claim). -/
structure Request where
  id : String
  service : String
  command : String
  data : String
deriving Repr, DecidableEq

/-- domain.Response.  The Go struct has Data []byte and Error error;
data here is the byte payload as text and error is some message exactly
when the Go Error field is non-nil. -/
structure Response where
  id : String
  service : String
  data : String := ""
  error : Option String := none
deriving Repr, DecidableEq

/-! ## CalcService.HandleRequest (internal/usecase/services.go)

The Go method returns (*Response, error); the second component below is
that Go-level error result, which the source sets to nil on every
return path (errors are reported inside the Response instead). -/

/-- The float64 primitives the Calc handler calls, abstracted: parse is
strconv.ParseFloat, returning none exactly when the Go error result is
non-nil (whether a syntax error or ErrRange); add, sub, mul, div are
the float64 operators of the language; isZero is the b == 0 float
comparison; fmt2 is fmt %.2f.  All of these are Go standard library
and language primitives, outside this repository, so the handler
theorems quantify over them, the way the parseRequest theorems
quantify over the json.Unmarshal outcome. -/
structure CalcFloatOps (F : Type) where
  parse : List Char → Option F
  add : F → F → F
  sub : F → F → F
  mul : F → F → F
  div : F → F → F
  isZero : F → Bool
  fmt2 : F → List Char

/-- CalcService.HandleRequest, over the abstracted float primitives. -/
def calcHandleRequest {F : Type} (ops : CalcFloatOps F) (req : Request) :
    Response × Option String :=
  match fieldsList req.data.data with
  | p0 :: p1 :: p2 :: _ =>
      match ops.parse p0, ops.parse p2 with
      | some a, some b =>
          let op := p1
          if op = ['+'] then
            (⟨req.id, "calc",
              String.mk (ops.fmt2 a ++ ' ' :: op ++ ' ' :: ops.fmt2 b ++
                         ' ' :: '=' :: ' ' :: ops.fmt2 (ops.add a b)), none⟩, none)
          else if op = ['-'] then
            (⟨req.id, "calc",
              String.mk (ops.fmt2 a ++ ' ' :: op ++ ' ' :: ops.fmt2 b ++
                         ' ' :: '=' :: ' ' :: ops.fmt2 (ops.sub a b)), none⟩, none)
          else if op = ['*'] then
            (⟨req.id, "calc",
              String.mk (ops.fmt2 a ++ ' ' :: op ++ ' ' :: ops.fmt2 b ++
                         ' ' :: '=' :: ' ' :: ops.fmt2 (ops.mul a b)), none⟩, none)
          else if op = ['/'] then
            if ops.isZero b then
              (⟨req.id, "calc", "", some "division by zero"⟩, none)
            else
              (⟨req.id, "calc",
                String.mk (ops.fmt2 a ++ ' ' :: op ++ ' ' :: ops.fmt2 b ++
                           ' ' :: '=' :: ' ' :: ops.fmt2 (ops.div a b)), none⟩, none)
          else
            (⟨req.id, "calc", "", some ("unsupported operator: " ++ String.mk op)⟩, none)
      | _, _ =>
          (⟨req.id, "calc", "", some "invalid numbers"⟩, none)
  | _ =>
      (⟨req.id, "calc", "", some "usage: <num1> <op> <num2>"⟩, none)

/-- The reference instantiation of the float primitives over exact
fractions: the decimal-fragment parse, exact arithmetic, the
numerator-zero test and the ties-to-even hundredths format.  It
coincides with the Go primitives on the concrete scenario inputs of the
claims, whose operand and result values are all exactly representable
binary64 doubles. -/
def refCalcOps : CalcFloatOps GoFloat :=
  { parse := parseFloatQ
    add := GoFloat.add
    sub := GoFloat.sub
    mul := GoFloat.mul
    div := GoFloat.divF
    isZero := GoFloat.isZero
    fmt2 := fmtF2 }

/-! ## UDPServer.sendResponse (internal/infrastructure/network/udp_server.go)

The reply is a JSON object with keys id, service, data, timestamp and,
when the response carries an error, error.  The data key is always
written: it holds the payload, or the text ERROR: followed by the error
message when the response carries an error. -/

/-- The reply envelope written by sendResponse.  The data field is a
String (always present in the marshalled object); error is present
exactly when the option is some. -/
structure Envelope where
  id : String
  service : String
  data : String
  timestamp : Int
  error : Option String
deriving Repr, DecidableEq

/-- UDPServer.sendResponse: build the reply envelope for a response.
The timestamp argument is the Unix-seconds value of response.Timestamp.
The json.Marshal step and the socket write are outside the model. -/
def sendResponse (resp : Response) (ts : Int) : Envelope :=
  let responseData : String :=
    match resp.error with
    | some msg => "ERROR: " ++ msg
    | none => resp.data
  { id := resp.id
    service := resp.service
    data := responseData
    timestamp := ts
    error := resp.error }

/-- UDPServer.processRequest: invoke the handler; a non-nil Go-level
handler error becomes a response that carries only that error. -/
def processRequest (handler : Request → Response × Option String) (req : Request) :
    Response :=
  match handler req with
  | (resp, none) => resp
  | (_, some e) => ⟨req.id, "", "", some e⟩

/-! ## UDPServer.parseRequest

json.Unmarshal is Go library code, outside the repository; its outcome
is passed in as the parameter dec: none when the body is not a
parseable envelope, some of the decoded fields otherwise.  A field
absent from the JSON object decodes to the empty string, so an absent
id arrives here as the empty string.  uuid.New().String() is passed in
as freshId. -/

/-- The envelope fields decoded by json.Unmarshal: id, command, data. -/
structure EnvIn where
  id : String
  command : String
  data : String
deriving Repr, DecidableEq

/-- UDPServer.parseRequest.  Returns the constructed request and the
Go-level error result (which the source always sets to nil). -/
def parseRequest (dec : Option EnvIn) (raw : String) (freshId : String) :
    Request × Option String :=
  match dec with
  | none => (⟨freshId, "", "", raw⟩, none)
  | some e =>
      (⟨(if e.id = "" then freshId else e.id), "", e.command, e.data⟩, none)

/-! ## Per-tag statistics (UDPServer.handleRequest, handleServiceConnections)

Counter state of one tag in UDPServer.stats, plus two pieces of hidden
state of the real system that the counters do not record: the number of
successfully submitted tasks not yet started, and the number of started
tasks not yet finished.  received is incremented at the start of
handleRequest, i.e. when the worker runs the task, not when the receive
loop reads the datagram; a failed Submit increments only errors. -/

structure TagStats where
  received : Int
  processed : Int
  errors : Int
deriving Repr, DecidableEq

/-- One tag of the datagram host: counters plus submitted and in-flight
task counts. -/
structure HostState where
  stats : TagStats
  backlog : Int
  inflight : Int
deriving Repr, DecidableEq

inductive HostLabel where
  /-- handleServiceConnections: Submit returned nil. -/
  | submitOk
  /-- handleServiceConnections: Submit failed (queue full); the
  datagram is dropped and only the errors counter moves. -/
  | submitFull
  /-- A worker starts handleRequest: received is incremented. -/
  | taskBegin
  /-- handleRequest reaches its end: processed is incremented. -/
  | taskEnd
deriving Repr, DecidableEq

/-- One step of the per-tag statistics, as updated by the source. -/
def hostStep : HostLabel → HostState → Option HostState
  | .submitOk, s => some { s with backlog := s.backlog + 1 }
  | .submitFull, s =>
      some { s with stats := { s.stats with errors := s.stats.errors + 1 } }
  | .taskBegin, s =>
      if s.backlog ≤ 0 then none
      else some { s with
        backlog := s.backlog - 1
        inflight := s.inflight + 1
        stats := { s.stats with received := s.stats.received + 1 } }
  | .taskEnd, s =>
      if s.inflight ≤ 0 then none
      else some { s with
        inflight := s.inflight - 1
        stats := { s.stats with processed := s.stats.processed + 1 } }

/-- Run a sequence of host steps from a state. -/
def runHost : List HostLabel → HostState → Option HostState
  | [], s => some s
  | l :: ls, s => (hostStep l s).bind (runHost ls)

/-- The state of a tag right after Start: all counters zero. -/
def hostInit : HostState := ⟨⟨0, 0, 0⟩, 0, 0⟩

/-! ## The incremental mean of handleRequest

On success handleRequest runs, under the stats mutex:
  RequestsProcessed++
  AvgResponseTime = (AvgResponseTime*(RequestsProcessed-1) + responseTime)
                      / RequestsProcessed
Durations are int64 nanosecond counts; both operands are non-negative
here, so the Go truncated division is the Nat floor division. -/

/-- The processed-count and average update of handleRequest, on the
pair (processed, avg) with the observed latency, in nanoseconds. -/
def updateProcessed (processed avg latency : Nat) : Nat × Nat :=
  let p := processed + 1
  (p, (avg * (p - 1) + latency) / p)

/-- The same recurrence in exact rational arithmetic: state is the
running average and the count. -/
def stepAvgQ (st : ℚ × ℕ) (l : ℚ) : ℚ × ℕ :=
  ((st.1 * st.2 + l) / ((st.2 : ℚ) + 1), st.2 + 1)

/-- Folding the exact recurrence over a list of latencies. -/
def foldAvgQ (st : ℚ × ℕ) : List ℚ → ℚ × ℕ
  | [] => st
  | l :: ls => foldAvgQ (stepAvgQ st l) ls

/-! ## UDPServer.handleRequest, branch structure

handleRequest, with the wall clock, the decode outcome, the fresh id
and the handler passed in as parameters.  The Bool in the result
records whether the parse-failure branch (sendError plus errors
increment) was taken. -/

/-- handleRequest on one datagram: statistics update (processed count
and average only; received is handled by hostStep/taskBegin), the reply
envelope written, and whether the parse-error branch ran. -/
def handleRequestRun (dec : Option EnvIn) (raw : String) (freshId : String)
    (handler : Request → Response × Option String)
    (processed avg latency : Nat) (ts : Int) :
    (Nat × Nat) × Envelope × Bool :=
  match parseRequest dec raw freshId with
  | (req, some e) =>
      -- sendError path: error envelope, errors counter incremented
      ((processed, avg), ⟨req.id, "", "", ts, some e⟩, true)
  | (req, none) =>
      let resp := processRequest handler req
      (updateProcessed processed avg latency, sendResponse resp ts, false)

/-! ## StatsService (internal/usecase/services.go)

Only the dispatch and the POOL branch are embedded concretely; the ALL,
SERVICE and HELP branches serialize ledger snapshots through
json.MarshalIndent and are passed in as pre-rendered responses, since
no claim depends on their content. -/

/-- domain.PoolStats, the snapshot record returned by ThreadPool.Stats. -/
structure PoolStatsRec where
  activeWorkers : Int
  queuedTasks : Int
  completedTasks : Int
  minWorkers : Int
  maxWorkers : Int
  currentWorkers : Int
deriving Repr, DecidableEq

/-- StatsService.handlePoolStats: the source returns a fixed
placeholder text and never consults the pool. -/
def handlePoolStats : Response :=
  ⟨"", "stats", "Pool stats not implemented in this version", none⟩

/-- StatsService.HandleRequest dispatch.  allResp and serviceResp stand
for the marshalled outputs of handleAllStats and handleServiceStats. -/
def statsHandleRequest (req : Request)
    (allResp : Response) (serviceResp : Response) (helpResp : Response) :
    Response × Option String :=
  match req.command with
  | "ALL" => (allResp, none)
  | "SERVICE" => (serviceResp, none)
  | "POOL" => (handlePoolStats, none)
  | "HELP" => (helpResp, none)
  | c => (⟨req.id, "stats", "", some ("unknown command: " ++ c)⟩, none)

/-! ## ServiceRegistry (internal/infrastructure/network/service_registry.go)

RegisterService holds the registry mutex for the whole check-and-insert
sequence, so one registration is a single atomic step of this model. -/

/-- A registered service as the registry sees it: tag and port. -/
structure RegService where
  tag : String
  port : Int
deriving Repr, DecidableEq

inductive RegError where
  /-- domain.ErrServiceExists -/
  | serviceExists
  /-- domain.ErrPortInUse -/
  | portInUse
deriving Repr, DecidableEq

/-- The two registry maps: tag to service and port to tag. -/
structure RegistryState where
  services : List (String × RegService)
  ports : List (Int × String)
deriving Repr, DecidableEq

def emptyRegistry : RegistryState := ⟨[], []⟩

/-- ServiceRegistry.RegisterService: fail on a present tag, then on a
bound port, else insert into both maps. -/
def registerService (st : RegistryState) (svc : RegService) :
    RegistryState × Option RegError :=
  if (st.services.lookup svc.tag).isSome then (st, some .serviceExists)
  else if (st.ports.lookup svc.port).isSome then (st, some .portInUse)
  else (⟨(svc.tag, svc) :: st.services, (svc.port, svc.tag) :: st.ports⟩, none)

/-- Run a sequence of registrations from a state, collecting the ones
that succeeded, in order. -/
def registerAll (st : RegistryState) : List RegService → RegistryState × List RegService
  | [] => (st, [])
  | svc :: rest =>
      if (registerService st svc).2.isSome then
        registerAll (registerService st svc).1 rest
      else
        ((registerAll (registerService st svc).1 rest).1,
         svc :: (registerAll (registerService st svc).1 rest).2)

/-! ## ThreadPool (internal/infrastructure/network/thread_pool.go)

The pool is modelled as a labelled transition system.  The state holds
the four atomic counters of the source, the occupancy of the buffered
task channel, the population of actual worker goroutines (split into
idle workers blocked on the queue and workers running a task), and the
occupancy of the workerQueue side channel, which the source writes in
optimize and never reads anywhere.

The expand threshold comparison in the source is
  float64(queued)/float64(queueSize) > expandThreshold;
the configuration carries the threshold as an exact fraction
thresholdNum/thresholdDen and the comparison is stated cross-multiplied
(queueSize is positive), which is exact where the float division is
exactly representable, as it is at every step of the traces below. -/

structure PoolConfig where
  minWorkers : Int
  maxWorkers : Int
  queueSize : Int
  thresholdNum : Int
  thresholdDen : Int
deriving Repr, DecidableEq

structure PoolState where
  /-- atomic counter currentWorkers -/
  current : Int
  /-- atomic counter activeWorkers -/
  active : Int
  /-- atomic counter queuedTasks -/
  queued : Int
  /-- atomic counter completedTasks -/
  completed : Int
  /-- occupancy of the buffered channel taskQueue -/
  chanLen : Int
  /-- actual worker goroutines blocked reading taskQueue -/
  idleWorkers : Int
  /-- actual worker goroutines inside task() -/
  runningWorkers : Int
  /-- occupancy of the workerQueue channel (written by optimize,
  never read) -/
  sentinels : Int
deriving Repr, DecidableEq

/-- ThreadPool.addWorker: refuse beyond maxWorkers, else increment
currentWorkers and start one goroutine (initially idle). -/
def addWorker (cfg : PoolConfig) (s : PoolState) : PoolState :=
  if s.current ≥ cfg.maxWorkers then s
  else { s with current := s.current + 1, idleWorkers := s.idleWorkers + 1 }

/-- ThreadPool.checkAndExpand, run after a successful Submit. -/
def checkAndExpand (cfg : PoolConfig) (s : PoolState) : PoolState :=
  if s.current ≥ cfg.maxWorkers then s
  else if s.queued * cfg.thresholdDen > cfg.thresholdNum * cfg.queueSize then
    addWorker cfg s
  else s

/-- The empty pool before Start. -/
def poolInit : PoolState := ⟨0, 0, 0, 0, 0, 0, 0, 0⟩

/-- ThreadPool.Start: spawn minWorkers workers through addWorker. -/
def startPool (cfg : PoolConfig) : PoolState :=
  (addWorker cfg)^[cfg.minWorkers.toNat] poolInit

inductive PoolLabel where
  /-- Submit succeeds: task enqueued, queuedTasks incremented, then
  checkAndExpand. -/
  | submit
  /-- An idle worker receives a task from taskQueue and increments
  activeWorkers. -/
  | take
  /-- A running worker returns from task(): activeWorkers decremented,
  completedTasks incremented, queuedTasks decremented; the worker goes
  back to waiting on the queue. -/
  | finish
  /-- An idle worker hits the workerTimeout case with
  currentWorkers > minWorkers and exits. -/
  | idleExit
  /-- The manager ticker runs optimize and its condition holds:
  currentWorkers is decremented and a sentinel is sent on workerQueue;
  no goroutine exits. -/
  | optimize
deriving Repr, DecidableEq

/-- One step of the pool.  Guards are the conditions under which the
corresponding piece of source code can run. -/
def poolStep (cfg : PoolConfig) : PoolLabel → PoolState → Option PoolState
  | .submit, s =>
      -- the channel send succeeds only while occupancy is below capacity
      if s.chanLen < cfg.queueSize then
        some (checkAndExpand cfg { s with chanLen := s.chanLen + 1, queued := s.queued + 1 })
      else none
  | .take, s =>
      if s.idleWorkers ≥ 1 ∧ s.chanLen ≥ 1 then
        some { s with
          idleWorkers := s.idleWorkers - 1
          runningWorkers := s.runningWorkers + 1
          chanLen := s.chanLen - 1
          active := s.active + 1 }
      else none
  | .finish, s =>
      if s.runningWorkers ≥ 1 then
        some { s with
          runningWorkers := s.runningWorkers - 1
          idleWorkers := s.idleWorkers + 1
          active := s.active - 1
          completed := s.completed + 1
          queued := s.queued - 1 }
      else none
  | .idleExit, s =>
      if s.idleWorkers ≥ 1 ∧ s.current > cfg.minWorkers then
        some { s with idleWorkers := s.idleWorkers - 1, current := s.current - 1 }
      else none
  | .optimize, s =>
      if s.current > cfg.minWorkers ∧ s.active < s.current.tdiv 2 ∧ s.queued = 0 then
        some { s with current := s.current - 1, sentinels := s.sentinels + 1 }
      else none

/-- Run a sequence of pool steps. -/
def runPool (cfg : PoolConfig) : List PoolLabel → PoolState → Option PoolState
  | [], s => some s
  | l :: ls, s => (poolStep cfg l s).bind (runPool cfg ls)

/-- ThreadPool.Stats: the snapshot an external observer reads. -/
def poolStats (cfg : PoolConfig) (s : PoolState) : PoolStatsRec :=
  { activeWorkers := s.active
    queuedTasks := s.queued
    completedTasks := s.completed
    minWorkers := cfg.minWorkers
    maxWorkers := cfg.maxWorkers
    currentWorkers := s.current }

/-! ## Chunk sizes (lab3 stream server)

Two computations exist in the source.  The selectMultiplexer method
(the one actually used when a session is accepted) clamps to the
MinChunkSize and MaxChunkSize constants of lab3/internal/domain.  The
free function CalculateOptimalChunkSize takes a bandwidth argument and
caps at 512 with no lower bound.  Durations are nanosecond counts;
Duration.Milliseconds and the Go divisions truncate toward zero. -/

/-- lab3/internal/domain MinChunkSize. -/
def MinChunkSize : Int := 512

/-- lab3/internal/domain MaxChunkSize. -/
def MaxChunkSize : Int := 8192

/-- selectMultiplexer.calculateOptimalChunkSize: target latency is ping
times 10; bytesPerMs is 1024*1024/1000 in integer division; the product
of the target in milliseconds with bytesPerMs is clamped. -/
def calculateOptimalChunkSize (pingNs : Int) : Int :=
  let targetLatency := pingNs * 10
  let bytesPerMs : Int := 1024 * 1024 / 1000
  let chunkSize := (targetLatency.tdiv 1000000) * bytesPerMs
  if chunkSize < MinChunkSize then MinChunkSize
  else if chunkSize > MaxChunkSize then MaxChunkSize
  else chunkSize

/-- The free function CalculateOptimalChunkSize of the multiplexer
file: pingNs * bandwidth / 8 / 1e6, returned as is unless it exceeds
512, in which case 512. -/
def CalculateOptimalChunkSize (pingNs bandwidth : Int) : Int :=
  let maxInteractiveChunk := ((pingNs * bandwidth).tdiv 8).tdiv 1000000
  if maxInteractiveChunk > 512 then 512 else maxInteractiveChunk

/-- The clamp the specification describes, with the stated constants. -/
def specClamp (x : Int) : Int :=
  if x < MinChunkSize then MinChunkSize
  else if x > MaxChunkSize then MaxChunkSize
  else x

/-! ## Theorems -/

/-- Claim C1.  The pool counter invariant fails on the code: after
Start with min 1, max 2, queue capacity 2 and expand threshold 1/4, the
step sequence below (two submits, both tasks taken and finished, one
optimize tick, then three more submits with three takes) reaches a
state whose Stats snapshot shows 3 active workers against a
currentWorkers counter of 2, and a queuedTasks counter of 3 against a
queue capacity of 2.  The optimize step decrements currentWorkers and
sends a sentinel on workerQueue, but no goroutine ever reads that
channel, so all workers stay alive and can all become active; and
queuedTasks counts in-flight tasks as well as channel occupancy, so it
can exceed the capacity. -/
theorem pool_bounds_violated_on_trace :
    runPool ⟨1, 2, 2, 1, 4⟩
      [.submit, .submit, .take, .take, .finish, .finish, .optimize,
       .submit, .submit, .take, .take, .submit, .take]
      (startPool ⟨1, 2, 2, 1, 4⟩) = some ⟨2, 3, 3, 2, 0, 0, 3, 1⟩ ∧
    (poolStats ⟨1, 2, 2, 1, 4⟩ ⟨2, 3, 3, 2, 0, 0, 3, 1⟩).activeWorkers >
      (poolStats ⟨1, 2, 2, 1, 4⟩ ⟨2, 3, 3, 2, 0, 0, 3, 1⟩).currentWorkers ∧
    (poolStats ⟨1, 2, 2, 1, 4⟩ ⟨2, 3, 3, 2, 0, 0, 3, 1⟩).queuedTasks >
      (⟨1, 2, 2, 1, 4⟩ : PoolConfig).queueSize := by
  refine ⟨by decide, by decide, by decide⟩

/-- Claim C2.  The stats-consistency inequality fails on the code: one
datagram handled successfully and one datagram dropped because Submit
returned queue-full leave the tag at received 1, processed 1, errors 1,
and 1 + 1 > 1.  The drop increments only errors, while received is
incremented inside handleRequest, which never runs for the dropped
datagram. -/
theorem stats_consistency_violated_on_trace :
    runHost [.submitOk, .taskBegin, .taskEnd, .submitFull] hostInit =
      some ⟨⟨1, 1, 1⟩, 0, 0⟩ ∧
    (⟨⟨1, 1, 1⟩, 0, 0⟩ : HostState).stats.processed +
        (⟨⟨1, 1, 1⟩, 0, 0⟩ : HostState).stats.errors >
      (⟨⟨1, 1, 1⟩, 0, 0⟩ : HostState).stats.received := by
  refine ⟨by decide, by decide⟩

/-- Claim C4, counterexample.  On the Calc request with data 1 / 0 the
reply envelope has the error field present, but its data field is the
string ERROR: division by zero, not absent and not empty. -/
theorem reply_data_not_empty_on_error :
    (sendResponse (processRequest (calcHandleRequest refCalcOps) ⟨"4", "", "", "1 / 0"⟩) 0).error =
      some "division by zero" ∧
    (sendResponse (processRequest (calcHandleRequest refCalcOps) ⟨"4", "", "", "1 / 0"⟩) 0).data =
      "ERROR: division by zero" ∧
    ¬ (sendResponse (processRequest (calcHandleRequest refCalcOps) ⟨"4", "", "", "1 / 0"⟩) 0).data = "" := by
  refine ⟨by decide, by decide, by decide⟩

/-- Claim C4, as amended.  In every reply envelope the error field
equals the response error (present iff the response carries one); when
an error is present the data field holds ERROR: followed by the error
text, and is therefore never empty; when no error is present the data
field is the payload.  The Calc request 1 / 0 yields error division by
zero and data ERROR: division by zero. -/
theorem reply_envelope_error_framing :
    (∀ (resp : Response) (ts : Int), (sendResponse resp ts).error = resp.error) ∧
    (∀ (resp : Response) (ts : Int) (m : String), resp.error = some m →
      (sendResponse resp ts).data = "ERROR: " ++ m ∧ (sendResponse resp ts).data ≠ "") ∧
    (∀ (resp : Response) (ts : Int), resp.error = none →
      (sendResponse resp ts).data = resp.data) ∧
    (∀ ts : Int,
      (sendResponse (processRequest (calcHandleRequest refCalcOps) ⟨"4", "", "", "1 / 0"⟩) ts).error =
        some "division by zero" ∧
      (sendResponse (processRequest (calcHandleRequest refCalcOps) ⟨"4", "", "", "1 / 0"⟩) ts).data =
        "ERROR: division by zero") := by
  refine ⟨?_, ?_, ?_, ?_⟩
  · intro resp ts
    cases h : resp.error <;> simp [sendResponse, h]
  · intro resp ts m h
    constructor
    · simp [sendResponse, h]
    · simp only [sendResponse, h]
      intro hcontra
      have := congrArg String.length hcontra
      simp [String.length_append] at this
      exact absurd this.1 (by decide)
  · intro resp ts h
    simp [sendResponse, h]
  · intro ts
    constructor <;> rfl

/-- Claim C4 witness: the amended framing at a concrete response that
carries an error. -/
theorem reply_envelope_error_framing_witness :
    (sendResponse ⟨"w", "calc", "", some "division by zero"⟩ 7).data =
      "ERROR: " ++ "division by zero" ∧
    (sendResponse ⟨"w", "calc", "", some "division by zero"⟩ 7).data ≠ "" :=
  reply_envelope_error_framing.2.1 ⟨"w", "calc", "", some "division by zero"⟩ 7
    "division by zero" rfl

/-- Claim C5.  The POOL branch of the Stats service does not return the
pool snapshot: for the request with command POOL (whatever responses
the other branches would have produced) the source returns the fixed
placeholder text Pool stats not implemented in this version, and never
consults ThreadPool.Stats. -/
theorem pool_command_returns_placeholder :
    statsHandleRequest ⟨"9", "stats", "POOL", ""⟩
        ⟨"", "stats", "all", none⟩ ⟨"", "stats", "svc", none⟩ ⟨"", "stats", "help", none⟩ =
      (handlePoolStats, none) ∧
    handlePoolStats.data = "Pool stats not implemented in this version" := by
  refine ⟨rfl, rfl⟩

/-- Every float produced by the exponent stage of the numeral grammar
has a positive denominator. -/
theorem applyExp_den_pos (neg : Bool) (m f : Nat) (cs : List Char) (x : GoFloat)
    (h : applyExp neg m f cs = some x) : 0 < x.den := by
  cases cs with
  | nil =>
    simp only [applyExp] at h
    have := Option.some.inj h
    rw [← this]
    positivity
  | cons e cs =>
    simp only [applyExp] at h
    split_ifs at h
    all_goals rw [← Option.some.inj h]
    all_goals positivity

/-- Every successfully parsed numeral has a positive denominator. -/
theorem parseFloatQ_den_pos (cs : List Char) (x : GoFloat)
    (h : parseFloatQ cs = some x) : 0 < x.den := by
  simp only [parseFloatQ] at h
  split at h
  · split_ifs at h with h1
    exact applyExp_den_pos _ _ _ _ _ h
  · split_ifs at h with h1
    exact applyExp_den_pos _ _ _ _ _ h

/-- Addition of modelled floats is exact rational addition. -/
theorem GoFloat.add_toRat (a b : GoFloat) (ha : 0 < a.den) (hb : 0 < b.den) :
    (GoFloat.add a b).toRat = a.toRat + b.toRat := by
  have ha2 : ((a.den : ℚ)) ≠ 0 := by exact_mod_cast ha.ne'
  have hb2 : ((b.den : ℚ)) ≠ 0 := by exact_mod_cast hb.ne'
  simp only [GoFloat.add, GoFloat.toRat]
  push_cast
  field_simp

/-- Subtraction of modelled floats is exact rational subtraction. -/
theorem GoFloat.sub_toRat (a b : GoFloat) (ha : 0 < a.den) (hb : 0 < b.den) :
    (GoFloat.sub a b).toRat = a.toRat - b.toRat := by
  have ha2 : ((a.den : ℚ)) ≠ 0 := by exact_mod_cast ha.ne'
  have hb2 : ((b.den : ℚ)) ≠ 0 := by exact_mod_cast hb.ne'
  simp only [GoFloat.sub, GoFloat.toRat]
  push_cast
  field_simp
  ring

/-- Multiplication of modelled floats is exact rational
multiplication. -/
theorem GoFloat.mul_toRat (a b : GoFloat) (ha : 0 < a.den) (hb : 0 < b.den) :
    (GoFloat.mul a b).toRat = a.toRat * b.toRat := by
  have ha2 : ((a.den : ℚ)) ≠ 0 := by exact_mod_cast ha.ne'
  have hb2 : ((b.den : ℚ)) ≠ 0 := by exact_mod_cast hb.ne'
  simp only [GoFloat.mul, GoFloat.toRat]
  push_cast
  field_simp

/-- Division of modelled floats by a non-zero float is exact rational
division. -/
theorem GoFloat.divF_toRat (a b : GoFloat) (ha : 0 < a.den) (hb : 0 < b.den)
    (hb0 : b.num ≠ 0) :
    (GoFloat.divF a b).toRat = a.toRat / b.toRat := by
  have ha2 : ((a.den : ℚ)) ≠ 0 := by exact_mod_cast ha.ne'
  have hb2 : ((b.den : ℚ)) ≠ 0 := by exact_mod_cast hb.ne'
  have hb02 : ((b.num : ℚ)) ≠ 0 := Int.cast_ne_zero.mpr hb0
  unfold GoFloat.divF GoFloat.toRat
  split_ifs with hneg
  · push_cast
    field_simp
  · push_cast
    field_simp

/-- Claim C3.  The Calc handler never returns a Go-level error; for
every implementation of the float primitives it calls (in particular
the real strconv.ParseFloat, float64 arithmetic and fmt %.2f), it
splits request data into whitespace-separated fields and answers, as
response errors: the usage text on fewer than three fields, invalid
numbers when an operand does not parse, unsupported operator outside
plus, minus, star, slash, and division by zero on slash with a
right operand comparing equal to zero; otherwise it returns the two
formatted operands and the formatted result of the operation; under
the reference primitives (which coincide with the Go ones on these
exactly representable values) data 5 * 10 produces
5.00 * 10.00 = 50.00. -/
theorem calc_handler_cases :
    (∀ (F : Type) (ops : CalcFloatOps F) (req : Request),
      (calcHandleRequest ops req).2 = none) ∧
    (∀ (F : Type) (ops : CalcFloatOps F) (req : Request),
      (fieldsList req.data.data).length < 3 →
      (calcHandleRequest ops req).1.error = some "usage: <num1> <op> <num2>") ∧
    (∀ (F : Type) (ops : CalcFloatOps F) (req : Request)
      (p0 p1 p2 : List Char) (rest : List (List Char)),
      fieldsList req.data.data = p0 :: p1 :: p2 :: rest →
      (ops.parse p0 = none ∨ ops.parse p2 = none) →
      (calcHandleRequest ops req).1.error = some "invalid numbers") ∧
    (∀ (F : Type) (ops : CalcFloatOps F) (req : Request)
      (p0 p1 p2 : List Char) (rest : List (List Char)) (a b : F),
      fieldsList req.data.data = p0 :: p1 :: p2 :: rest →
      ops.parse p0 = some a → ops.parse p2 = some b →
      p1 ≠ ['+'] → p1 ≠ ['-'] → p1 ≠ ['*'] → p1 ≠ ['/'] →
      (calcHandleRequest ops req).1.error =
        some ("unsupported operator: " ++ String.mk p1)) ∧
    (∀ (F : Type) (ops : CalcFloatOps F) (req : Request)
      (p0 p2 : List Char) (rest : List (List Char)) (a b : F),
      fieldsList req.data.data = p0 :: ['/'] :: p2 :: rest →
      ops.parse p0 = some a → ops.parse p2 = some b → ops.isZero b = true →
      (calcHandleRequest ops req).1.error = some "division by zero" ∧
      (calcHandleRequest ops req).1.data = "") ∧
    (∀ (F : Type) (ops : CalcFloatOps F) (req : Request)
      (p0 p2 : List Char) (rest : List (List Char)) (a b : F),
      fieldsList req.data.data = p0 :: ['+'] :: p2 :: rest →
      ops.parse p0 = some a → ops.parse p2 = some b →
      (calcHandleRequest ops req).1.error = none ∧
      (calcHandleRequest ops req).1.data =
        String.mk (ops.fmt2 a ++ ' ' :: ['+'] ++ ' ' :: ops.fmt2 b ++
          ' ' :: '=' :: ' ' :: ops.fmt2 (ops.add a b))) ∧
    (∀ (F : Type) (ops : CalcFloatOps F) (req : Request)
      (p0 p2 : List Char) (rest : List (List Char)) (a b : F),
      fieldsList req.data.data = p0 :: ['-'] :: p2 :: rest →
      ops.parse p0 = some a → ops.parse p2 = some b →
      (calcHandleRequest ops req).1.error = none ∧
      (calcHandleRequest ops req).1.data =
        String.mk (ops.fmt2 a ++ ' ' :: ['-'] ++ ' ' :: ops.fmt2 b ++
          ' ' :: '=' :: ' ' :: ops.fmt2 (ops.sub a b))) ∧
    (∀ (F : Type) (ops : CalcFloatOps F) (req : Request)
      (p0 p2 : List Char) (rest : List (List Char)) (a b : F),
      fieldsList req.data.data = p0 :: ['*'] :: p2 :: rest →
      ops.parse p0 = some a → ops.parse p2 = some b →
      (calcHandleRequest ops req).1.error = none ∧
      (calcHandleRequest ops req).1.data =
        String.mk (ops.fmt2 a ++ ' ' :: ['*'] ++ ' ' :: ops.fmt2 b ++
          ' ' :: '=' :: ' ' :: ops.fmt2 (ops.mul a b))) ∧
    (∀ (F : Type) (ops : CalcFloatOps F) (req : Request)
      (p0 p2 : List Char) (rest : List (List Char)) (a b : F),
      fieldsList req.data.data = p0 :: ['/'] :: p2 :: rest →
      ops.parse p0 = some a → ops.parse p2 = some b → ops.isZero b = false →
      (calcHandleRequest ops req).1.error = none ∧
      (calcHandleRequest ops req).1.data =
        String.mk (ops.fmt2 a ++ ' ' :: ['/'] ++ ' ' :: ops.fmt2 b ++
          ' ' :: '=' :: ' ' :: ops.fmt2 (ops.div a b))) ∧
    (calcHandleRequest refCalcOps ⟨"3", "", "", "5 * 10"⟩).1 =
      ⟨"3", "calc", "5.00 * 10.00 = 50.00", none⟩ := by
  refine ⟨?_, ?_, ?_, ?_, ?_, ?_, ?_, ?_, ?_, by decide⟩
  · -- the Go-level error result is nil on every path
    intro F ops req
    rcases hf : fieldsList req.data.data with _ | ⟨p0, _ | ⟨p1, _ | ⟨p2, rest⟩⟩⟩ <;>
      simp only [calcHandleRequest, hf]
    cases hpa : ops.parse p0 <;> cases hpb : ops.parse p2 <;>
      simp only [hpa, hpb] <;> split_ifs <;> rfl
  · -- usage
    intro F ops req h
    rcases hf : fieldsList req.data.data with _ | ⟨p0, _ | ⟨p1, _ | ⟨p2, rest⟩⟩⟩ <;>
      simp only [calcHandleRequest, hf]
    rw [hf] at h
    simp only [List.length_cons] at h
    omega
  · -- invalid numbers
    intro F ops req p0 p1 p2 rest hf hbad
    simp only [calcHandleRequest, hf]
    rcases hbad with hb | hb
    · simp only [hb]
    · cases hpa : ops.parse p0 <;> simp only [hpa, hb]
  · -- unsupported operator
    intro F ops req p0 p1 p2 rest a b hf hpa hpb h1 h2 h3 h4
    simp only [calcHandleRequest, hf, hpa, hpb]
    rw [if_neg h1, if_neg h2, if_neg h3, if_neg h4]
  · -- division by zero
    intro F ops req p0 p2 rest a b hf hpa hpb hz
    refine ⟨?_, ?_⟩ <;> simp [calcHandleRequest, hf, hpa, hpb, hz]
  · -- addition
    intro F ops req p0 p2 rest a b hf hpa hpb
    refine ⟨?_, ?_⟩ <;> simp [calcHandleRequest, hf, hpa, hpb, String.mk]
  · -- subtraction
    intro F ops req p0 p2 rest a b hf hpa hpb
    refine ⟨?_, ?_⟩ <;> simp [calcHandleRequest, hf, hpa, hpb, String.mk]
  · -- multiplication
    intro F ops req p0 p2 rest a b hf hpa hpb
    refine ⟨?_, ?_⟩ <;> simp [calcHandleRequest, hf, hpa, hpb, String.mk]
  · -- division with a divisor not comparing equal to zero
    intro F ops req p0 p2 rest a b hf hpa hpb hz
    refine ⟨?_, ?_⟩ <;> simp [calcHandleRequest, hf, hpa, hpb, hz, String.mk]

/-- Claim C3 witness: under the reference primitives, the usage case at
data 1 2 and the division-by-zero case at data 1 / 0, both through the
case theorem. -/
theorem calc_handler_cases_witness :
    (calcHandleRequest refCalcOps ⟨"w1", "", "", "1 2"⟩).1.error =
      some "usage: <num1> <op> <num2>" ∧
    (calcHandleRequest refCalcOps ⟨"w2", "", "", "1 / 0"⟩).1.error =
      some "division by zero" :=
  ⟨calc_handler_cases.2.1 GoFloat refCalcOps ⟨"w1", "", "", "1 2"⟩ (by decide),
   (calc_handler_cases.2.2.2.2.1 GoFloat refCalcOps ⟨"w2", "", "", "1 / 0"⟩
      ['1'] ['0'] [] ⟨1, 1⟩ ⟨0, 1⟩ (by decide) (by decide) (by decide)
      (by decide)).1⟩


/-- A successful registration leaves every present tag present. -/
theorem lookup_services_mono (st : RegistryState) (svc : RegService) (k : String)
    (h : (st.services.lookup k).isSome) :
    (((registerService st svc).1).services.lookup k).isSome := by
  unfold registerService
  split_ifs with h1 h2
  · exact h
  · exact h
  · simp only [List.lookup]
    cases hk : (k == svc.tag) <;> simp [h]

/-- A successful registration leaves every bound port bound. -/
theorem lookup_ports_mono (st : RegistryState) (svc : RegService) (k : Int)
    (h : (st.ports.lookup k).isSome) :
    (((registerService st svc).1).ports.lookup k).isSome := by
  unfold registerService
  split_ifs with h1 h2
  · exact h
  · exact h
  · simp only [List.lookup]
    cases hk : (k == svc.port) <;> simp [h]

/-- A failed registration leaves the registry unchanged. -/
theorem registerService_fail (st : RegistryState) (svc : RegService)
    (h : ((registerService st svc).2).isSome) :
    (registerService st svc).1 = st := by
  unfold registerService at *
  split_ifs at h ⊢ <;> simp_all

/-- A successful registration prepends the service to both maps, and
its guards certify that the tag and the port were free. -/
theorem registerService_success (st : RegistryState) (svc : RegService)
    (h : (registerService st svc).2 = none) :
    (registerService st svc).1 =
        ⟨(svc.tag, svc) :: st.services, (svc.port, svc.tag) :: st.ports⟩ ∧
      st.services.lookup svc.tag = none ∧ st.ports.lookup svc.port = none := by
  unfold registerService at h ⊢
  split_ifs at h ⊢ with h1 h2
  exact ⟨rfl, Option.not_isSome_iff_eq_none.mp h1, Option.not_isSome_iff_eq_none.mp h2⟩

/-- Every service accepted during a run of registrations had, at the
start of the run, an unused tag and an unused port. -/
theorem accepted_absent (ops : List RegService) :
    ∀ (st : RegistryState) (a : RegService), a ∈ (registerAll st ops).2 →
      st.services.lookup a.tag = none ∧ st.ports.lookup a.port = none := by
  induction ops with
  | nil => intro st a ha; simp [registerAll] at ha
  | cons svc rest ih =>
    intro st a ha
    rw [registerAll] at ha
    by_cases hi : ((registerService st svc).2).isSome
    · rw [if_pos hi] at ha
      have := ih (registerService st svc).1 a ha
      rwa [registerService_fail st svc hi] at this
    · rw [if_neg hi] at ha
      have hsucc := registerService_success st svc (Option.not_isSome_iff_eq_none.mp hi)
      simp only [List.mem_cons] at ha
      rcases ha with rfl | ha
      · exact ⟨hsucc.2.1, hsucc.2.2⟩
      · have := ih (registerService st svc).1 a ha
        rw [hsucc.1] at this
        obtain ⟨ht, hp⟩ := this
        simp only [List.lookup] at ht hp
        constructor
        · cases hk : (a.tag == svc.tag)
          · rw [hk] at ht; simpa using ht
          · rw [hk] at ht; simp at ht
        · cases hk : (a.port == svc.port)
          · rw [hk] at hp; simpa using hp
          · rw [hk] at hp; simp at hp

/-- The services accepted during a run of registrations are pairwise
distinct in both tag and port. -/
theorem accepted_pairwise (ops : List RegService) :
    ∀ st : RegistryState,
      ((registerAll st ops).2).Pairwise fun a b => a.tag ≠ b.tag ∧ a.port ≠ b.port := by
  induction ops with
  | nil => intro st; simp [registerAll]
  | cons svc rest ih =>
    intro st
    rw [registerAll]
    by_cases hi : ((registerService st svc).2).isSome
    · rw [if_pos hi]
      exact ih (registerService st svc).1
    · rw [if_neg hi]
      have hsucc := registerService_success st svc (Option.not_isSome_iff_eq_none.mp hi)
      refine List.pairwise_cons.mpr ⟨?_, ih (registerService st svc).1⟩
      intro b hb
      obtain ⟨ht, hp⟩ := accepted_absent rest (registerService st svc).1 b hb
      rw [hsucc.1] at ht hp
      simp only [List.lookup] at ht hp
      constructor
      · intro hcontra
        have hbeq : (b.tag == svc.tag) = true := by simp [hcontra]
        rw [hbeq] at ht
        simp at ht
      · intro hcontra
        have hbeq : (b.port == svc.port) = true := by simp [hcontra]
        rw [hbeq] at hp
        simp at hp

/-- Claim C6.  RegisterService returns ErrServiceExists exactly when
the tag is already present, ErrPortInUse exactly when the tag is free
but the port is already bound (the whole check-and-insert runs under
the registry mutex, so one registration is one atomic step of the
model); consequently, along any sequence of registrations from the
empty registry, the successfully registered services are pairwise
distinct in tag and in port. -/
theorem register_service_uniqueness :
    (∀ (st : RegistryState) (svc : RegService),
      (registerService st svc).2 = some RegError.serviceExists ↔
        (st.services.lookup svc.tag).isSome) ∧
    (∀ (st : RegistryState) (svc : RegService),
      (registerService st svc).2 = some RegError.portInUse ↔
        ¬ (st.services.lookup svc.tag).isSome ∧ (st.ports.lookup svc.port).isSome) ∧
    (∀ ops : List RegService,
      ((registerAll emptyRegistry ops).2).Pairwise
        fun a b => a.tag ≠ b.tag ∧ a.port ≠ b.port) := by
  refine ⟨?_, ?_, fun ops => accepted_pairwise ops emptyRegistry⟩
  · intro st svc
    unfold registerService
    split_ifs with h1 h2 <;> simp_all
  · intro st svc
    unfold registerService
    split_ifs with h1 h2 <;> simp_all

/-- Claim C6 witness: registering echo on 8081 and then echo2 on the
same port 8081 accepts only the first service, and the accepted list is
pairwise distinct in tag and port. -/
theorem register_service_uniqueness_witness :
    ((registerAll emptyRegistry [⟨"echo", 8081⟩, ⟨"echo2", 8081⟩]).2).Pairwise
      (fun a b => a.tag ≠ b.tag ∧ a.port ≠ b.port) ∧
    (registerAll emptyRegistry [⟨"echo", 8081⟩, ⟨"echo2", 8081⟩]).2 = [⟨"echo", 8081⟩] :=
  ⟨register_service_uniqueness.2.2 [⟨"echo", 8081⟩, ⟨"echo2", 8081⟩], by decide⟩

/-- Claim C7.  parseRequest: an unparseable body yields the raw bytes
as data, an empty command and the generated id; a parseable envelope
yields its command and data, with the generated id substituted exactly
when the envelope id is empty (an absent JSON field decodes to the
empty string). -/
theorem parse_request_tolerance :
    (∀ raw freshId : String,
      parseRequest none raw freshId = (⟨freshId, "", "", raw⟩, none)) ∧
    (∀ (e : EnvIn) (raw freshId : String), e.id = "" →
      parseRequest (some e) raw freshId = (⟨freshId, "", e.command, e.data⟩, none)) ∧
    (∀ (e : EnvIn) (raw freshId : String), e.id ≠ "" →
      parseRequest (some e) raw freshId = (⟨e.id, "", e.command, e.data⟩, none)) := by
  refine ⟨fun raw freshId => rfl, ?_, ?_⟩
  · intro e raw freshId h
    simp [parseRequest, h]
  · intro e raw freshId h
    simp [parseRequest, h]

/-- Claim C7 witness: both envelope cases at concrete inputs. -/
theorem parse_request_tolerance_witness :
    parseRequest (some ⟨"", "UNIX", "x"⟩) "r" "gen" = (⟨"gen", "", "UNIX", "x"⟩, none) ∧
    parseRequest (some ⟨"7", "UNIX", "x"⟩) "r" "gen" = (⟨"7", "", "UNIX", "x"⟩, none) :=
  ⟨parse_request_tolerance.2.1 ⟨"", "UNIX", "x"⟩ "r" "gen" rfl,
   parse_request_tolerance.2.2 ⟨"7", "UNIX", "x"⟩ "r" "gen" (by decide)⟩

/-- Folding the exact mean recurrence from a state whose average is
sum/count yields the average of everything seen. -/
theorem foldAvgQ_from_ratio (ls : List ℚ) :
    ∀ (s : ℚ) (n : ℕ), (n = 0 → s = 0) →
      foldAvgQ (s / (n : ℚ), n) ls =
        ((s + ls.sum) / ((n : ℚ) + ls.length), n + ls.length) := by
  induction ls with
  | nil =>
    intro s n _
    simp [foldAvgQ]
  | cons l ls ih =>
    intro s n h
    have hstep : stepAvgQ (s / (n : ℚ), n) l = ((s + l) / ((n : ℚ) + 1), n + 1) := by
      simp only [stepAvgQ]
      rcases Nat.eq_zero_or_pos n with h0 | hpos
      · subst h0
        rw [h rfl]
        norm_num
      · have hn : (n : ℚ) ≠ 0 := Nat.cast_ne_zero.mpr hpos.ne'
        rw [div_mul_cancel₀ s hn]
    rw [foldAvgQ, hstep]
    have hcast : ((n : ℚ) + 1) = (((n + 1 : ℕ) : ℚ)) := by push_cast; ring
    rw [hcast, ih (s + l) (n + 1) (fun hc => absurd hc (Nat.succ_ne_zero n))]
    simp only [Prod.mk.injEq, List.sum_cons, List.length_cons]
    constructor
    · push_cast
      ring_nf
    · omega

/-- Claim C8.  handleRequest updates the average by exactly the claimed
recurrence: with processed_old handled requests and stored average
avg_old, a new latency yields count processed_old + 1 and average
(avg_old * processed_old + latency) / (processed_old + 1) in integer
nanoseconds; and the same recurrence carried out in exact arithmetic
over any non-empty latency list produces the arithmetic mean, so the
stored value is the mean up to the rounding of the division performed
at each step. -/
theorem incremental_mean :
    (∀ processed avg latency : Nat,
      updateProcessed processed avg latency =
        (processed + 1, (avg * processed + latency) / (processed + 1))) ∧
    (∀ ls : List ℚ, ls ≠ [] →
      (foldAvgQ (0, 0) ls).1 = ls.sum / (ls.length : ℚ)) := by
  constructor
  · intro p avg l
    simp [updateProcessed]
  · intro ls _
    have h0 : ((0 : ℚ), (0 : ℕ)) = ((0 : ℚ) / ((0 : ℕ) : ℚ), (0 : ℕ)) := by norm_num
    rw [h0, foldAvgQ_from_ratio ls 0 0 (fun _ => rfl)]
    simp

/-- Claim C8 witness: latencies 2 and 4 give stored average 3. -/
theorem incremental_mean_witness : (foldAvgQ (0, 0) [(2 : ℚ), 4]).1 = 3 := by
  have h := incremental_mean.2 [(2 : ℚ), 4] (by simp)
  norm_num [List.sum_cons] at h
  exact h

/-- Claim C9, counterexample.  The free function
CalculateOptimalChunkSize is not the specified clamp: at a ping of one
millisecond and a bandwidth argument of 8 it returns 1, which is below
MinChunkSize (and differs from the clamp of the product, which would be
512). -/
theorem chunk_free_function_below_min :
    CalculateOptimalChunkSize 1000000 8 = 1 ∧
    ¬ MinChunkSize ≤ CalculateOptimalChunkSize 1000000 8 ∧
    CalculateOptimalChunkSize 1000000 8 ≠
      specClamp (((1000000 * 8 : Int).tdiv 8).tdiv 1000000) := by
  refine ⟨by decide, by decide, by decide⟩

/-- Claim C9, as amended.  The chunk-size computation the stream server
actually uses on accept, selectMultiplexer.calculateOptimalChunkSize,
returns clamp(ping_budget_ms * bytes_per_ms, 512, 8192) with
ping_budget = ping * 10 and bytes_per_ms = 1048 (the integer quotient
1024*1024/1000), so its result always lies between MinChunkSize 512 and
MaxChunkSize 8192; the separate free function
CalculateOptimalChunkSize(ping, bandwidth) instead caps its product
formula at 512 and has no lower bound. -/
theorem chunk_size_clamped :
    ∀ pingNs : Int,
      calculateOptimalChunkSize pingNs =
        specClamp ((pingNs * 10).tdiv 1000000 * 1048) ∧
      MinChunkSize ≤ calculateOptimalChunkSize pingNs ∧
      calculateOptimalChunkSize pingNs ≤ MaxChunkSize := by
  intro pingNs
  have h : (1024 * 1024 / 1000 : Int) = 1048 := by decide
  refine ⟨?_, ?_, ?_⟩ <;>
    simp only [calculateOptimalChunkSize, specClamp, MinChunkSize, MaxChunkSize, h] <;>
    split_ifs <;> omega

/-- Claim C10.  parseRequest returns a nil Go-level error on every
input, so the parse-failure branch of handleRequest (error reply plus
errors increment) never runs: the branch marker of handleRequestRun is
false for all inputs. -/
theorem parse_failure_branch_unreachable :
    (∀ (dec : Option EnvIn) (raw freshId : String),
      (parseRequest dec raw freshId).2 = none) ∧
    (∀ (dec : Option EnvIn) (raw freshId : String)
      (handler : Request → Response × Option String)
      (processed avg latency : Nat) (ts : Int),
      (handleRequestRun dec raw freshId handler processed avg latency ts).2.2 = false) := by
  constructor
  · intro dec raw freshId
    cases dec <;> simp [parseRequest]
  · intro dec raw freshId handler processed avg latency ts
    cases dec <;> simp [handleRequestRun, parseRequest]

end NSSaDS
